import Mathlib

/-!
Verification development for the session-scoped download orchestration and
progress-aggregation engine of the YT-Downloader Flask application
(src/app.py).  The Python session dictionaries, the yt-dlp progress hook,
the background worker wrapper and the relevant HTTP route bodies are
shallowly embedded as pure Lean functions.  Python floats are modelled as
rationals (finite decimal values; inf/nan are outside the model), Python
exceptions as an explicit `Except` error channel, and the mutable
per-session dictionary as an explicit state record threaded through the
functions.
-/

set_option maxRecDepth 4000

/-- One entry of the `playlist_info` list kept in the session dictionary. -/
structure PlaylistEntry where
  title : String
  duration : String
  downloaded : Bool
deriving DecidableEq, Repr

/-- One entry of the `downloads_history` list (written at successful job end). -/
structure HistoryEntry where
  timestamp : String
  url : String
  kind : String
  quality : String
  title : String
  total_videos : Nat
deriving DecidableEq, Repr

/-- The per-session progress dictionary of src/app.py (the value stored in
the module-level `user_sessions` map).  Field names follow the dictionary
keys.  `local_files` entries are opaque descriptors of files found by
`scan_local_files`; the file system is modelled as an explicit parameter
wherever the code rescans it. -/
structure ProgressData where
  status : String
  progress : String
  title : String
  current : Nat
  total : Nat
  overall_percent : ℚ
  playlist_info : List PlaylistEntry
  current_download : String
  downloaded_videos : List String
  local_files : List String
  downloads_history : List HistoryEntry
deriving DecidableEq, Repr

/-- A partial-field update, the argument of `update_progress_data`
(a Python `dict.update` with a known key set: absent keys are `none`). -/
structure Update where
  status : Option String := none
  progress : Option String := none
  title : Option String := none
  current : Option Nat := none
  total : Option Nat := none
  overall_percent : Option ℚ := none
  playlist_info : Option (List PlaylistEntry) := none
  current_download : Option String := none
  downloaded_videos : Option (List String) := none
  local_files : Option (List String) := none
  downloads_history : Option (List HistoryEntry) := none
deriving DecidableEq, Repr

/-- `user_sessions[user_id].update(updates)` — merge the given keys into the
current session dictionary (src/app.py, update_progress_data). -/
def update_progress_data (s : ProgressData) (u : Update) : ProgressData :=
  { status := u.status.getD s.status
    progress := u.progress.getD s.progress
    title := u.title.getD s.title
    current := u.current.getD s.current
    total := u.total.getD s.total
    overall_percent := u.overall_percent.getD s.overall_percent
    playlist_info := u.playlist_info.getD s.playlist_info
    current_download := u.current_download.getD s.current_download
    downloaded_videos := u.downloaded_videos.getD s.downloaded_videos
    local_files := u.local_files.getD s.local_files
    downloads_history := u.downloads_history.getD s.downloads_history }

/-- `reset_progress_data` (src/app.py): replaces the session dictionary,
keeping `downloaded_videos` and `downloads_history` from the old one and
rescanning local files (`files` is the scan result). -/
def reset_progress_data (s : ProgressData) (files : List String) : ProgressData :=
  { status := "ready"
    progress := "0%"
    title := ""
    current := 0
    total := 0
    overall_percent := 0
    playlist_info := []
    current_download := ""
    downloaded_videos := s.downloaded_videos
    local_files := files
    downloads_history := s.downloads_history }

/-- The status key of a yt-dlp progress event (`d['status']`). -/
inductive DlStatus where
  | downloading
  | finished
deriving DecidableEq, Repr

/-- A yt-dlp progress callback event `d`:  `d['_percent_str']` (absent keys
give the default "0%") and `d.get('info_dict')['title']` (an absent
info_dict or title gives ""). -/
structure Event where
  status : DlStatus
  percent_str : Option String
  title : Option String
deriving DecidableEq, Repr

/-- Exceptions that can escape `progress_hook`:  the cancellation
`Exception` raised at the top of the hook, and Python's
`ZeroDivisionError` from the overall-percentage division. -/
inductive HookError where
  | canceled
  | zeroDiv
deriving DecidableEq, Repr

/-! String processing helpers used by the hook
    (`strip_ansi`, `.strip()`, `.replace('%','')`, `float(...)`). -/

/-- After "\x1b[", consume `[0-9;]*` followed by 'm'; `none` if the escape
sequence is not terminated, mirroring the regex `\x1b\[[0-9;]*m`. -/
def ansiSuffix : List Char → Option (List Char)
  | [] => none
  | c :: rest =>
    if c = 'm' then some rest
    else if c.isDigit ∨ c = ';' then ansiSuffix rest
    else none

/-- Worker for `stripAnsi`; the fuel is an upper bound on the number of
steps (each step consumes at least one character, so fuel = length of the
input is always enough and the fuel never runs out on real inputs). -/
def stripAnsiGo : Nat → List Char → List Char
  | 0, l => l
  | _ + 1, [] => []
  | fuel + 1, c :: rest =>
    if c = '\x1b' then
      match rest with
      | '[' :: rest2 =>
        match ansiSuffix rest2 with
        | some r => stripAnsiGo fuel r
        | none => c :: stripAnsiGo fuel rest
      | _ => c :: stripAnsiGo fuel rest
    else c :: stripAnsiGo fuel rest

/-- `strip_ansi` (src/app.py): `re.sub(r'\x1b\[[0-9;]*m', '', text)`. -/
def stripAnsi (s : String) : String :=
  ⟨stripAnsiGo s.toList.length s.toList⟩

/-- Python `str.strip()` on the whitespace that occurs in percent strings. -/
def pyStrip (s : String) : String :=
  ⟨((s.toList.dropWhile Char.isWhitespace).reverse.dropWhile Char.isWhitespace).reverse⟩

/-- Python `str.replace('%', '')`: removes every '%' character. -/
def removePercent (s : String) : String :=
  ⟨s.toList.filter (fun c => c ≠ '%')⟩

/-- The numeric value of a digit string read most-significant first. -/
def digitsToNat (ds : List Char) : Nat :=
  ds.foldl (fun a c => a * 10 + (c.toNat - '0'.toNat)) 0

/-- Split a leading run of ASCII digits from the rest. -/
def takeDigits : List Char → List Char × List Char
  | [] => ([], [])
  | c :: rest =>
    if c.isDigit then
      let p := takeDigits rest
      (c :: p.1, p.2)
    else ([], c :: rest)

/-- Digit-level part of Python `float(s)`: parse optional sign, decimal
mantissa `digits [. digits]` (at least one digit), optional exponent
`(e|E) [sign] digits`, into a pair (integer mantissa, decimal exponent)
whose value is `mantissa * 10 ^ exponent`.  Computed entirely with
integer arithmetic so that concrete inputs evaluate by kernel reduction. -/
def parsePyFloatRep (s : String) : Option (ℤ × ℤ) :=
  let cs := s.toList
  let sign : ℤ × List Char :=
    match cs with
    | '+' :: r => (1, r)
    | '-' :: r => (-1, r)
    | _ => (1, cs)
  let p := takeDigits sign.2
  let mant : Option (ℤ × ℤ × List Char) :=
    match p.2 with
    | '.' :: r2 =>
      let q := takeDigits r2
      if p.1.isEmpty ∧ q.1.isEmpty then none
      else some ((digitsToNat p.1 * 10 ^ q.1.length + digitsToNat q.1 : ℤ),
                 (-(q.1.length : ℤ), q.2))
    | _ => if p.1.isEmpty then none else some ((digitsToNat p.1 : ℤ), (0, p.2))
  match mant with
  | none => none
  | some (m, fe, rest) =>
    match rest with
    | [] => some (sign.1 * m, fe)
    | e :: r2 =>
      if e = 'e' ∨ e = 'E' then
        let esign : ℤ × List Char :=
          match r2 with
          | '+' :: r => (1, r)
          | '-' :: r => (-1, r)
          | _ => (1, r2)
        let ed := takeDigits esign.2
        if ed.1.isEmpty ∨ ¬ ed.2.isEmpty then none
        else some (sign.1 * m, fe + esign.1 * (digitsToNat ed.1 : ℤ))
      else none

/-- Python `float(s)` on an already-stripped string, modelled for finite
decimal literals.  (Literals such as inf/nan have no rational value and
are outside the model; no real yt-dlp percent string produces them.) -/
def parsePyFloat (s : String) : Option ℚ :=
  (parsePyFloatRep s).map (fun p => (p.1 : ℚ) * (10 : ℚ) ^ p.2)

/-! Rounding.  Python's `round(x, 2)` rounds to the nearest multiple of
1/100 with ties going to the even hundredth (banker's rounding); it is
modelled exactly on the rational value. -/

/-- Round to the nearest integer, ties to even (Python `round(x)`). -/
def roundHalfEven (q : ℚ) : ℤ :=
  if Int.fract q < 1 / 2 then ⌊q⌋
  else if 1 / 2 < Int.fract q then ⌊q⌋ + 1
  else if 2 ∣ ⌊q⌋ then ⌊q⌋ else ⌊q⌋ + 1

/-- Python `round(x, 2)`. -/
def round2 (q : ℚ) : ℚ :=
  (roundHalfEven (q * 100) : ℚ) / 100

/-! The progress hook (src/app.py, progress_hook) and its callers. -/

/-- The cleaned percent string of an event:
`strip_ansi(d.get('_percent_str', '0%')).strip()` (src/app.py line 198). -/
def rawOf (d : Event) : String :=
  pyStrip (stripAnsi (d.percent_str.getD "0%"))

/-- The parsed item percentage:
`float(raw.replace('%', '').strip())`, with any parse failure giving 0.0
(src/app.py lines 199-202). -/
def eventPercent (d : Event) : ℚ :=
  (parsePyFloat (pyStrip (removePercent (rawOf d)))).getD 0

/-- The event's item label: `(d.get('info_dict') or {}).get('title', '')`. -/
def eventTitle (d : Event) : String :=
  d.title.getD ""

/-- The fields written by the 'downloading' branch of the hook
(src/app.py lines 216-222). -/
def dlSet (s : ProgressData) (raw t : String) (ov : ℚ) : ProgressData :=
  { s with status := "downloading", progress := raw, title := t,
           current_download := t, overall_percent := ov }

/-- `playlist_info[current_index]["downloaded"] = True` guarded by
`current_index < len(playlist_info)` (out-of-range indices are a no-op). -/
def markDownloaded : List PlaylistEntry → Nat → List PlaylistEntry
  | [], _ => []
  | e :: rest, 0 => { e with downloaded := true } :: rest
  | e :: rest, n + 1 => e :: markDownloaded rest n

/-- The 'finished' branch of the hook (src/app.py lines 224-258): bump the
completed count, dedup-append the title, mark the manifest entry, set the
overall percentage and status, and store the rescanned `files`. -/
def finUpdate (s : ProgressData) (t : String) (files : List String) : ProgressData :=
  let dv := if t ≠ "" ∧ t ∉ s.downloaded_videos
            then s.downloaded_videos ++ [t] else s.downloaded_videos
  let pli := markDownloaded s.playlist_info s.current
  let nc := s.current + 1
  { s with current := nc,
           status := if s.total ≤ nc then "finished" else "downloading",
           progress := "100%",
           playlist_info := pli,
           downloaded_videos := dv,
           current_download := if s.total ≤ nc then "" else t,
           overall_percent :=
             round2 (if s.total ≤ nc then 100 else ((nc : ℚ) / (s.total : ℚ)) * 100),
           local_files := files }

/-- `progress_hook(d, user_id, cancel_flag)` (src/app.py lines 191-258):
raises when the cancel flag is set; on a 'downloading' event computes the
overall percentage, where the `else` branch's division raises Python's
ZeroDivisionError when `total == 0` (the `.get("total", 1)` default only
applies to a missing key, and both initialization and reset store 0). -/
def progress_hook (cancel : Bool) (s : ProgressData) (d : Event)
    (files : List String) : Except HookError ProgressData :=
  if cancel then .error .canceled
  else
    match d.status with
    | .downloading =>
      if s.total = 1 then
        .ok (dlSet s (rawOf d) (eventTitle d) (round2 (eventPercent d)))
      else if s.total = 0 then
        .error .zeroDiv
      else
        .ok (dlSet s (rawOf d) (eventTitle d)
          (round2 (((s.current : ℚ) * 100 + eventPercent d) / (s.total : ℚ))))
    | .finished => .ok (finUpdate s (eventTitle d) files)

/-- Run the hook over a stream of events, each paired with the value the
session's cancel flag has when that callback fires; stops at the first
raised exception, returning the session state at that moment. -/
def runEvents (s : ProgressData) :
    List (Bool × Event) → List String → ProgressData × Option HookError
  | [], _ => (s, none)
  | fe :: rest, files =>
    match progress_hook fe.1 s fe.2 files with
    | .ok s2 => runEvents s2 rest files
    | .error err => (s, some err)

/-- The human-readable text of a caught exception (`str(e)`). -/
def hookErrText : HookError → String
  | .canceled => "Download canceled by user"
  | .zeroDiv => "float division by zero"

/-- The try/except tail of `start_download` (src/app.py lines 407-446):
after the fetch call, the success block runs only when the cancel flag is
clear; an exception is mapped to 'canceled' or 'error' depending on the
cancel flag at catch time (`finalCancel`). -/
def start_download (s : ProgressData) (events : List (Bool × Event))
    (finalCancel : Bool) (files : List String) (entry : HistoryEntry) :
    ProgressData :=
  match runEvents s events files with
  | (s2, none) =>
    if finalCancel then s2
    else
      let h := s2.downloads_history ++ [entry]
      update_progress_data s2
        { status := some "finished", overall_percent := some 100,
          current_download := some "",
          downloads_history := some (h.drop (h.length - 20)) }
  | (s2, some err) =>
    if finalCancel then
      update_progress_data s2
        { status := some "canceled", progress := some "❌ Download canceled" }
    else
      update_progress_data s2
        { status := some "error",
          progress := some ("❌ Error: " ++ hookErrText err) }

/-- `errorMessage` in the spec's sense: present only in the Error phase,
where the code stores "❌ Error: ..." in the progress field. -/
def errorMessage (s : ProgressData) : Option String :=
  if s.status = "error" then some s.progress else none

/-- The response of the `/download` route body. -/
structure DownloadResponse where
  state : ProgressData
  httpStatus : Nat
  workerDispatched : Bool
deriving DecidableEq, Repr

/-- The `/download` route (src/app.py lines 457-494): reset the session
(preserving downloaded videos, history and the fresh file scan), then
reject with 400 when the form's url is missing or empty (`if not url`),
otherwise mark 'processing' and dispatch the background worker. -/
def download (s : ProgressData) (url : Option String) (files : List String) :
    DownloadResponse :=
  let dv := s.downloaded_videos
  let hist := s.downloads_history
  let s1 := reset_progress_data s files
  let s2 := update_progress_data s1
    { downloaded_videos := some dv, downloads_history := some hist,
      local_files := some files }
  if url.getD "" = "" then
    { state := s2, httpStatus := 400, workerDispatched := false }
  else
    { state := update_progress_data s2 { status := some "processing" },
      httpStatus := 200, workerDispatched := true }

/-- The `/progress` route (src/app.py lines 503-509): refresh the file
scan and return the stored snapshot unchanged otherwise. -/
def progress_route (s : ProgressData) (files : List String) : ProgressData :=
  { s with local_files := files }

/-! Traces of hook invocations without cancellation, for the invariant
claims. -/

/-- Run the hook (cancel flag clear) over a list of events. -/
def runNoCancel (s : ProgressData) :
    List Event → List String → ProgressData × Option HookError
  | [], _ => (s, none)
  | e :: rest, files =>
    match progress_hook false s e files with
    | .ok s2 => runNoCancel s2 rest files
    | .error _ => (s, some HookError.zeroDiv)

/-- All session states observed while running the hook over the events
(initial state first; stops early if an event raises). -/
def statesOf (s : ProgressData) : List Event → List String → List ProgressData
  | [], _ => [s]
  | e :: rest, files =>
    s :: (match progress_hook false s e files with
          | .ok s2 => statesOf s2 rest files
          | .error _ => [])

/-- Well-formed job traces: `r` items remain to finish and `p` is the last
percentage reported for the item in flight.  Each 'downloading' event
carries a percentage in [0,100] at least as large as the previous one for
the same item, each item emits one 'finished' event, no more than `r`
items finish, and no events arrive after the last item finished. -/
def wfTrace : Nat → ℚ → List Event → Prop
  | _, _, [] => True
  | r, p, e :: rest =>
    if e.status = .downloading then
      0 < r ∧ p ≤ eventPercent e ∧ eventPercent e ≤ 100 ∧
        wfTrace r (eventPercent e) rest
    else 0 < r ∧ wfTrace (r - 1) 0 rest

/-! Properties of the rounding function. -/

theorem floor_le_roundHalfEven (q : ℚ) : ⌊q⌋ ≤ roundHalfEven q := by
  unfold roundHalfEven
  split_ifs <;> omega

theorem roundHalfEven_le_floor_add_one (q : ℚ) : roundHalfEven q ≤ ⌊q⌋ + 1 := by
  unfold roundHalfEven
  split_ifs <;> omega

theorem roundHalfEven_mono {q r : ℚ} (h : q ≤ r) :
    roundHalfEven q ≤ roundHalfEven r := by
  rcases lt_or_eq_of_le (Int.floor_le_floor h) with hf | hf
  · calc roundHalfEven q ≤ ⌊q⌋ + 1 := roundHalfEven_le_floor_add_one q
      _ ≤ ⌊r⌋ := by omega
      _ ≤ roundHalfEven r := floor_le_roundHalfEven r
  · have hfr : Int.fract q ≤ Int.fract r := by
      simp only [Int.fract]
      rw [hf]
      linarith
    unfold roundHalfEven
    rw [hf]
    split_ifs <;> first | omega | linarith

theorem round2_mono {q r : ℚ} (h : q ≤ r) : round2 q ≤ round2 r := by
  unfold round2
  have h1 : roundHalfEven (q * 100) ≤ roundHalfEven (r * 100) :=
    roundHalfEven_mono (by linarith)
  have h2 : (roundHalfEven (q * 100) : ℚ) ≤ (roundHalfEven (r * 100) : ℚ) := by
    exact_mod_cast h1
  linarith

theorem round2_100 : round2 100 = 100 := by
  norm_num [round2, roundHalfEven, Int.fract]

theorem round2_le_100 {q : ℚ} (h : q ≤ 100) : round2 q ≤ 100 := by
  calc round2 q ≤ round2 100 := round2_mono h
    _ = 100 := round2_100

/-! Branch equations for the hook. -/

theorem progress_hook_dl_one (s : ProgressData) (d : Event) (files : List String)
    (hd : d.status = .downloading) (h1 : s.total = 1) :
    progress_hook false s d files =
      .ok (dlSet s (rawOf d) (eventTitle d) (round2 (eventPercent d))) := by
  simp [progress_hook, hd, h1]

theorem progress_hook_dl_many (s : ProgressData) (d : Event) (files : List String)
    (hd : d.status = .downloading) (h1 : s.total ≠ 1) (h0 : s.total ≠ 0) :
    progress_hook false s d files =
      .ok (dlSet s (rawOf d) (eventTitle d)
        (round2 (((s.current : ℚ) * 100 + eventPercent d) / (s.total : ℚ)))) := by
  simp [progress_hook, hd, h1, h0]

theorem progress_hook_dl_zero (s : ProgressData) (d : Event) (files : List String)
    (hd : d.status = .downloading) (h0 : s.total = 0) :
    progress_hook false s d files = .error .zeroDiv := by
  simp [progress_hook, hd, h0]

theorem progress_hook_fin (s : ProgressData) (d : Event) (files : List String)
    (hd : d.status = .finished) :
    progress_hook false s d files = .ok (finUpdate s (eventTitle d) files) := by
  simp [progress_hook, hd]

@[simp] theorem dlSet_current (s : ProgressData) (raw t : String) (ov : ℚ) :
    (dlSet s raw t ov).current = s.current := rfl

@[simp] theorem dlSet_total (s : ProgressData) (raw t : String) (ov : ℚ) :
    (dlSet s raw t ov).total = s.total := rfl

@[simp] theorem dlSet_status (s : ProgressData) (raw t : String) (ov : ℚ) :
    (dlSet s raw t ov).status = "downloading" := rfl

@[simp] theorem dlSet_overall (s : ProgressData) (raw t : String) (ov : ℚ) :
    (dlSet s raw t ov).overall_percent = ov := rfl

@[simp] theorem finUpdate_current (s : ProgressData) (t : String)
    (files : List String) : (finUpdate s t files).current = s.current + 1 := rfl

@[simp] theorem finUpdate_total (s : ProgressData) (t : String)
    (files : List String) : (finUpdate s t files).total = s.total := rfl

theorem finUpdate_status (s : ProgressData) (t : String) (files : List String) :
    (finUpdate s t files).status =
      if s.total ≤ s.current + 1 then "finished" else "downloading" := rfl

theorem finUpdate_overall (s : ProgressData) (t : String) (files : List String) :
    (finUpdate s t files).overall_percent =
      round2 (if s.total ≤ s.current + 1 then 100
              else ((s.current + 1 : ℚ) / (s.total : ℚ)) * 100) := by
  simp [finUpdate]

theorem finUpdate_label (s : ProgressData) (t : String) (files : List String) :
    (finUpdate s t files).current_download =
      if s.total ≤ s.current + 1 then "" else t := rfl

/-- Facts common to every non-raising hook invocation. -/
theorem hook_ok_step {s : ProgressData} {d : Event} {files : List String}
    {s2 : ProgressData} (h : progress_hook false s d files = .ok s2) :
    s2.total = s.total ∧ s.current ≤ s2.current ∧ s2.current ≤ s.current + 1 ∧
    (s2.status = "finished" → s2.overall_percent = 100) := by
  cases hd : d.status with
  | downloading =>
    rcases eq_or_ne s.total 1 with h1 | h1
    · rw [progress_hook_dl_one s d files hd h1] at h
      cases h
      refine ⟨rfl, le_refl _, by simp, ?_⟩
      intro hst
      simp [dlSet] at hst
    · rcases eq_or_ne s.total 0 with h0 | h0
      · rw [progress_hook_dl_zero s d files hd h0] at h
        cases h
      · rw [progress_hook_dl_many s d files hd h1 h0] at h
        cases h
        refine ⟨rfl, le_refl _, by simp, ?_⟩
        intro hst
        simp [dlSet] at hst
  | finished =>
    rw [progress_hook_fin s d files hd] at h
    cases h
    rcases le_or_lt s.total (s.current + 1) with hc | hc
    · refine ⟨rfl, by simp, by simp, ?_⟩
      intro _
      rw [finUpdate_overall, if_pos hc]
      exact round2_100
    · refine ⟨rfl, by simp, by simp, ?_⟩
      intro hst
      rw [finUpdate_status, if_neg (not_le.mpr hc)] at hst
      simp at hst

/-- The first state of a trace is the initial state. -/
theorem statesOf_head (s : ProgressData) (ev : List Event) (files : List String) :
    (statesOf s ev files).head? = some s := by
  cases ev <;> simp [statesOf]

/-! Equation lemmas for well-formed traces. -/

theorem wfTrace_cons_dl {r : Nat} {p : ℚ} {e : Event} {rest : List Event}
    (hd : e.status = .downloading) :
    wfTrace r p (e :: rest) ↔
      (0 < r ∧ p ≤ eventPercent e ∧ eventPercent e ≤ 100 ∧
        wfTrace r (eventPercent e) rest) := by
  rw [wfTrace, if_pos hd]

theorem wfTrace_cons_fin {r : Nat} {p : ℚ} {e : Event} {rest : List Event}
    (hd : e.status = .finished) :
    wfTrace r p (e :: rest) ↔ (0 < r ∧ wfTrace (r - 1) 0 rest) := by
  rw [wfTrace, if_neg (by simp [hd])]

/-- The completed-item count never decreases along any event trace. -/
theorem statesOf_current_chain (ev : List Event) :
    ∀ (s : ProgressData) (files : List String),
    List.Chain' (fun a b => a.current ≤ b.current) (statesOf s ev files) := by
  induction ev with
  | nil =>
    intro s files
    simp [statesOf]
  | cons e rest ih =>
    intro s files
    simp only [statesOf]
    cases h : progress_hook false s e files with
    | error err => simp
    | ok s2 =>
      rw [List.chain'_cons']
      refine ⟨?_, ih s2 files⟩
      intro b hb
      rw [statesOf_head] at hb
      simp only [Option.mem_some_iff] at hb
      subst hb
      exact (hook_ok_step h).2.1

/-- Once a state shows phase 'finished' its overall percentage is exactly
100, and the hook preserves this along any trace. -/
theorem statesOf_finished_100 (ev : List Event) :
    ∀ (s : ProgressData) (files : List String),
    (s.status = "finished" → s.overall_percent = 100) →
    ∀ t ∈ statesOf s ev files, t.status = "finished" → t.overall_percent = 100 := by
  induction ev with
  | nil =>
    intro s files hs t ht
    simp only [statesOf, List.mem_singleton] at ht
    subst ht
    exact hs
  | cons e rest ih =>
    intro s files hs t ht
    simp only [statesOf] at ht
    cases h : progress_hook false s e files with
    | error err =>
      rw [h] at ht
      simp only [List.mem_singleton, List.mem_cons, List.not_mem_nil, or_false] at ht
      subst ht
      exact hs
    | ok s2 =>
      rw [h] at ht
      simp only [List.mem_cons] at ht
      rcases ht with rfl | ht
      · exact hs
      · exact ih s2 files (hook_ok_step h).2.2.2 t ht

/-- Along a well-formed trace the hook never raises and the completed
count stays at or below the (constant) expected total. -/
theorem run_no_fail (ev : List Event) :
    ∀ (s : ProgressData) (r : Nat) (p : ℚ) (files : List String),
    wfTrace r p ev → s.current + r = s.total →
    (runNoCancel s ev files).2 = none ∧
    ∀ t ∈ statesOf s ev files, t.current ≤ t.total ∧ t.total = s.total := by
  induction ev with
  | nil =>
    intro s r p files _ hinv
    refine ⟨rfl, ?_⟩
    intro t ht
    simp only [statesOf, List.mem_singleton] at ht
    subst ht
    exact ⟨by omega, rfl⟩
  | cons e rest ih =>
    intro s r p files hwf hinv
    cases hd : e.status with
    | downloading =>
      rw [wfTrace_cons_dl hd] at hwf
      obtain ⟨hr, hpq, hq100, hwfr⟩ := hwf
      have h0 : s.total ≠ 0 := by omega
      have hok : ∃ ov, progress_hook false s e files =
          .ok (dlSet s (rawOf e) (eventTitle e) ov) := by
        rcases eq_or_ne s.total 1 with h1 | h1
        · exact ⟨_, progress_hook_dl_one s e files hd h1⟩
        · exact ⟨_, progress_hook_dl_many s e files hd h1 h0⟩
      obtain ⟨ov, hok⟩ := hok
      have hih := ih (dlSet s (rawOf e) (eventTitle e) ov) r (eventPercent e)
        files hwfr (by simpa using hinv)
      constructor
      · rw [runNoCancel, hok]
        exact hih.1
      · intro t ht
        rw [statesOf, hok] at ht
        simp only [List.mem_cons] at ht
        rcases ht with rfl | ht
        · exact ⟨by omega, rfl⟩
        · have h2 := hih.2 t ht
          simpa using h2
    | finished =>
      rw [wfTrace_cons_fin hd] at hwf
      obtain ⟨hr, hwfr⟩ := hwf
      have hok := progress_hook_fin s e files hd
      have hih := ih (finUpdate s (eventTitle e) files) (r - 1) 0 files hwfr
        (by simp; omega)
      constructor
      · rw [runNoCancel, hok]
        exact hih.1
      · intro t ht
        rw [statesOf, hok] at ht
        simp only [List.mem_cons] at ht
        rcases ht with rfl | ht
        · exact ⟨by omega, rfl⟩
        · have h2 := hih.2 t ht
          simpa using h2

/-- Along a well-formed trace the stored overall percentage never
decreases.  The invariant hypothesis relates the last stored value to the
aggregation formula at the last reported percentage `p`. -/
theorem statesOf_overall_chain (ev : List Event) :
    ∀ (s : ProgressData) (r : Nat) (p : ℚ) (files : List String),
    wfTrace r p ev → s.current + r = s.total → 0 ≤ p → p ≤ 100 →
    s.overall_percent ≤ round2 (((s.current : ℚ) * 100 + p) / (s.total : ℚ)) →
    List.Chain' (fun a b => a.overall_percent ≤ b.overall_percent)
      (statesOf s ev files) := by
  induction ev with
  | nil =>
    intro s r p files _ _ _ _ _
    simp [statesOf]
  | cons e rest ih =>
    intro s r p files hwf hinv hp0 hp100 hov
    have htotpos : 0 < s.total := by
      cases hst : e.status with
      | downloading => rw [wfTrace_cons_dl hst] at hwf; omega
      | finished => rw [wfTrace_cons_fin hst] at hwf; omega
    have htq : (0 : ℚ) < (s.total : ℚ) := by exact_mod_cast htotpos
    cases hd : e.status with
    | downloading =>
      rw [wfTrace_cons_dl hd] at hwf
      obtain ⟨hr, hpq, hq100, hwfr⟩ := hwf
      have h0 : s.total ≠ 0 := by omega
      have hok : progress_hook false s e files =
          .ok (dlSet s (rawOf e) (eventTitle e)
            (round2 (((s.current : ℚ) * 100 + eventPercent e) / (s.total : ℚ)))) := by
        rcases eq_or_ne s.total 1 with h1 | h1
        · have hc0 : s.current = 0 := by omega
          rw [progress_hook_dl_one s e files hd h1, hc0, h1]
          norm_num
        · exact progress_hook_dl_many s e files hd h1 h0
      rw [statesOf, hok]
      rw [List.chain'_cons']
      constructor
      · intro b hb
        rw [statesOf_head] at hb
        simp only [Option.mem_some_iff] at hb
        subst hb
        rw [dlSet_overall]
        refine le_trans hov (round2_mono ?_)
        gcongr
      · apply ih _ r (eventPercent e) files hwfr (by simpa using hinv)
          (le_trans hp0 hpq) hq100
        simp only [dlSet_overall, dlSet_current, dlSet_total]
        exact le_rfl
    | finished =>
      rw [wfTrace_cons_fin hd] at hwf
      obtain ⟨hr, hwfr⟩ := hwf
      have hok := progress_hook_fin s e files hd
      rw [statesOf, hok]
      rw [List.chain'_cons']
      rcases eq_or_ne r 1 with hr1 | hr1
      · -- the last item finished: the job is complete
        have hcomp : s.total ≤ s.current + 1 := by omega
        have hov2 : (finUpdate s (eventTitle e) files).overall_percent = 100 := by
          rw [finUpdate_overall, if_pos hcomp]
          exact round2_100
        constructor
        · intro b hb
          rw [statesOf_head] at hb
          simp only [Option.mem_some_iff] at hb
          subst hb
          rw [hov2]
          refine le_trans hov (round2_le_100 ?_)
          rw [div_le_iff₀ htq]
          have hc1 : (s.total : ℚ) = (s.current : ℚ) + 1 := by
            have : s.total = s.current + 1 := by omega
            exact_mod_cast this
          linarith
        · apply ih _ (r - 1) 0 files hwfr (by simp; omega) le_rfl (by norm_num)
          rw [hov2]
          have harg : ((((finUpdate s (eventTitle e) files).current : ℚ)) * 100 + 0) /
              (((finUpdate s (eventTitle e) files).total : ℚ)) = 100 := by
            simp only [finUpdate_current, finUpdate_total]
            have hc1 : (s.total : ℚ) = ((s.current : ℚ) + 1) := by
              have : s.total = s.current + 1 := by omega
              exact_mod_cast this
            rw [hc1]
            push_cast
            field_simp
          rw [harg, round2_100]
      · -- more items remain
        have hncomp : ¬ s.total ≤ s.current + 1 := by omega
        have hov2 : (finUpdate s (eventTitle e) files).overall_percent =
            round2 (((s.current : ℚ) + 1) / (s.total : ℚ) * 100) := by
          rw [finUpdate_overall, if_neg hncomp]
        have hargeq : ((s.current : ℚ) + 1) / (s.total : ℚ) * 100 =
            (((s.current : ℚ) + 1) * 100 + 0) / (s.total : ℚ) := by
          field_simp
        constructor
        · intro b hb
          rw [statesOf_head] at hb
          simp only [Option.mem_some_iff] at hb
          subst hb
          rw [hov2, hargeq]
          refine le_trans hov (round2_mono ?_)
          rw [div_le_div_iff_of_pos_right htq]
          linarith
        · apply ih _ (r - 1) 0 files hwfr (by simp; omega) le_rfl (by norm_num)
          rw [hov2, hargeq]
          apply round2_mono
          simp only [finUpdate_current, finUpdate_total]
          push_cast
          linarith

theorem round2_zero : round2 0 = 0 := by
  norm_num [round2, roundHalfEven, Int.fract]

/-! Concrete session states and events used as inputs of witnesses and
counterexamples. -/

/-- A freshly started single-item job state. -/
def baseState : ProgressData :=
  { status := "starting", progress := "0%", title := "", current := 0,
    total := 1, overall_percent := 0, playlist_info := [],
    current_download := "", downloaded_videos := [], local_files := [],
    downloads_history := [] }

/-- Claim C8: resetting a session preserves the download history and the
completed-items dedup set (`downloaded_videos`) exactly, zeroes the
completed count, the expected total and the overall percentage, and
returns the phase to ready. -/
theorem reset_preserves_history (s : ProgressData) (files : List String) :
    (reset_progress_data s files).downloads_history = s.downloads_history ∧
    (reset_progress_data s files).downloaded_videos = s.downloaded_videos ∧
    (reset_progress_data s files).current = 0 ∧
    (reset_progress_data s files).total = 0 ∧
    (reset_progress_data s files).overall_percent = 0 ∧
    (reset_progress_data s files).status = "ready" :=
  ⟨rfl, rfl, rfl, rfl, rfl, rfl⟩

/-- A session that has just completed a three-item job. -/
def c7state : ProgressData :=
  { baseState with
    status := "finished"
    total := 3
    current := 3
    overall_percent := 100 }

/-- Claim C7 counterexample: a submit with a missing url is rejected with
400 and no worker, but the session state observable afterwards is the
*reset* state, not the pre-request state: the expected total (and with it
status, overall percentage, ...) has been zeroed before the url check. -/
theorem missing_url_state_mutation_cex :
    (download c7state none []).httpStatus = 400 ∧
    (download c7state none []).workerDispatched = false ∧
    (download c7state none []).state.total = 0 ∧
    c7state.total = 3 ∧
    (download c7state none []).state ≠ c7state := by
  refine ⟨rfl, rfl, rfl, rfl, ?_⟩
  intro h
  have h2 := congrArg ProgressData.total h
  simp [download, update_progress_data, reset_progress_data, c7state, baseState] at h2

/-- Claim C7 (amended): a submit whose url is missing or empty is rejected
synchronously with 400 and no worker is dispatched, but the session state
has first been reset (preserving the dedup set, the history and the fresh
file scan); the observable state after the rejection is exactly that
reset state. -/
theorem missing_url_reject (s : ProgressData) (url : Option String)
    (files : List String) (hurl : url.getD "" = "") :
    download s url files =
      { state := update_progress_data (reset_progress_data s files)
          { downloaded_videos := some s.downloaded_videos,
            downloads_history := some s.downloads_history,
            local_files := some files },
        httpStatus := 400, workerDispatched := false } := by
  unfold download
  rw [if_pos hurl]

/-- Witness for C7: the amended statement evaluated at a concrete state. -/
theorem missing_url_reject_witness :
    (some "" : Option String).getD "" = "" ∧
    (download c7state (some "") []).httpStatus = 400 ∧
    (download c7state (some "") []).workerDispatched = false ∧
    (download c7state (some "") []).state.status = "ready" := by
  have h := missing_url_reject c7state (some "") [] rfl
  rw [h]
  exact ⟨rfl, rfl, rfl, rfl⟩

/-- A session whose first job is still being written by its worker. -/
def c9state : ProgressData :=
  { baseState with
    status := "downloading"
    total := 5
    current := 2
    overall_percent := 40
    current_download := "Old video" }

/-- The second job's worker completing: its final success-block merge. -/
def c9newDone : Update :=
  { status := some "finished", overall_percent := some 100,
    current_download := some "" }

/-- The superseded first worker's late merge (its exception handler firing
after the session was reset for the second job). -/
def c9oldLate : Update :=
  { status := some "error",
    progress := some "❌ Error: Download canceled by user" }

/-- Claim C9: `update_progress_data` carries no session generation; a late
merge from the superseded first worker lands on the current session
dictionary and clobbers the second job's final result ('finished'
becomes 'error').  The spec requires such late updates to be dropped. -/
theorem stale_worker_clobbers :
    (update_progress_data
      (update_progress_data (download c9state (some "https://second") []).state
        c9newDone) c9oldLate).status = "error" ∧
    (update_progress_data (download c9state (some "https://second") []).state
        c9newDone).status = "finished" ∧
    "error" ≠ "finished" := by
  refine ⟨rfl, rfl, ?_⟩
  decide

/-- A session state whose expected total is (still) zero, as produced by
initialization and by `reset_progress_data`. -/
def c5state : ProgressData := { baseState with total := 0 }

/-- A 'downloading' event carrying a plain percentage. -/
def c5event : Event := ⟨.downloading, some "47.5%", some "Video"⟩

/-- A 'finished' event. -/
def c5finEvent : Event := ⟨.finished, none, some "Video"⟩

/-- Claim C5 counterexample: with the stored total equal to 0 a
'downloading' event reaches the `else` branch division and raises
ZeroDivisionError — the event is not treated as if the total were 1 and
processing does fail. -/
theorem total_zero_division_cex :
    c5state.total = 0 ∧
    progress_hook false c5state c5event [] = Except.error HookError.zeroDiv :=
  ⟨rfl, rfl⟩

/-- Claim C5 (amended): when the stored total is 0, an item-finished event
is processed without any division (the job counts as complete: phase
'finished', overall exactly 100), but a 'downloading' event raises
ZeroDivisionError; the treat-as-1 default applies only to a session
dictionary missing the total key, which never occurs after
initialization. -/
theorem total_zero_behavior (s : ProgressData) (d : Event) (files : List String)
    (h0 : s.total = 0) :
    (d.status = .finished →
      progress_hook false s d files = .ok (finUpdate s (eventTitle d) files) ∧
      (finUpdate s (eventTitle d) files).status = "finished" ∧
      (finUpdate s (eventTitle d) files).overall_percent = 100) ∧
    (d.status = .downloading →
      progress_hook false s d files = Except.error HookError.zeroDiv) := by
  constructor
  · intro hd
    have hc : s.total ≤ s.current + 1 := by omega
    refine ⟨progress_hook_fin s d files hd, ?_, ?_⟩
    · rw [finUpdate_status, if_pos hc]
    · rw [finUpdate_overall, if_pos hc]
      exact round2_100
  · intro hd
    exact progress_hook_dl_zero s d files hd h0

/-- Witness for C5: the amended statement evaluated at total = 0. -/
theorem total_zero_behavior_witness :
    c5state.total = 0 ∧
    (progress_hook false c5state c5finEvent []).map ProgressData.status =
      .ok "finished" ∧
    progress_hook false c5state c5event [] = Except.error HookError.zeroDiv := by
  have hf := total_zero_behavior c5state c5finEvent [] rfl
  have hd := total_zero_behavior c5state c5event [] rfl
  refine ⟨rfl, ?_, hd.2 rfl⟩
  rw [(hf.1 rfl).1]
  simp only [Except.map]
  rw [(hf.1 rfl).2.1]

/-- A single-item job state awaiting its first 'downloading' event. -/
def c10state : ProgressData := baseState

/-- A 'downloading' event whose percent string does not parse. -/
def c10event : Event := ⟨.downloading, some "N/A", none⟩

/-- The same unparseable event arriving while the stored total is 0. -/
def c10zeroState : ProgressData := { baseState with total := 0 }

/-- Claim C10 counterexample: an unparseable percent string is replaced by
0.0, but the hook can still raise — with the stored total equal to 0 the
subsequent division raises ZeroDivisionError, so "parsing failure never
raises out of the hook" fails as stated. -/
theorem parse_failure_raises_cex :
    parsePyFloat (pyStrip (removePercent (rawOf c10event))) = none ∧
    progress_hook false c10zeroState c10event [] =
      Except.error HookError.zeroDiv :=
  ⟨rfl, rfl⟩

/-- Claim C10 (amended): an unparseable percent string is treated as 0.0
and the status update is applied normally — provided cancellation is not
requested and the stored total is nonzero. -/
theorem parse_failure_zero (s : ProgressData) (d : Event) (files : List String)
    (hd : d.status = .downloading) (h0 : s.total ≠ 0)
    (hp : parsePyFloat (pyStrip (removePercent (rawOf d))) = none) :
    progress_hook false s d files =
      .ok (dlSet s (rawOf d) (eventTitle d)
        (if s.total = 1 then round2 0
         else round2 (((s.current : ℚ) * 100 + 0) / (s.total : ℚ)))) := by
  have hp0 : eventPercent d = 0 := by
    simp [eventPercent, hp]
  rcases eq_or_ne s.total 1 with h1 | h1
  · rw [progress_hook_dl_one s d files hd h1, if_pos h1, hp0]
  · rw [progress_hook_dl_many s d files hd h1 h0, if_neg h1, hp0]

/-- Witness for C10: unparseable "N/A" on a single-item job stores 0.0 and
status 'downloading'. -/
theorem parse_failure_zero_witness :
    parsePyFloat (pyStrip (removePercent (rawOf c10event))) = none ∧
    (progress_hook false c10state c10event []).map ProgressData.overall_percent =
      .ok 0 ∧
    (progress_hook false c10state c10event []).map ProgressData.status =
      .ok "downloading" := by
  have h := parse_failure_zero c10state c10event [] rfl (by decide) rfl
  have h1 : c10state.total = 1 := rfl
  refine ⟨rfl, ?_, ?_⟩
  · rw [h]
    simp only [Except.map, dlSet_overall]
    rw [if_pos h1, round2_zero]
  · rw [h]
    simp only [Except.map, dlSet_status]

/-- A single-item job state. -/
def c1state : ProgressData := baseState

/-- A 'downloading' event whose percentage has three decimal places. -/
def c1event : Event := ⟨.downloading, some "0.125%", some "Clip"⟩

/-- Claim C1 counterexample: on a single-item job the stored overall
percentage is round(p, 2), not p itself: p = 0.125 stores 0.12. -/
theorem overall_equals_p_cex :
    c1state.total = 1 ∧
    eventPercent c1event = 1 / 8 ∧
    (progress_hook false c1state c1event []).map ProgressData.overall_percent =
      .ok (3 / 25) ∧
    (3 / 25 : ℚ) ≠ 1 / 8 := by
  have hrep : parsePyFloatRep (pyStrip (removePercent (rawOf c1event))) =
      some (125, -3) := by decide
  have hp : eventPercent c1event = 1 / 8 := by
    simp [eventPercent, parsePyFloat, hrep]
    norm_num
  refine ⟨rfl, hp, ?_, by norm_num⟩
  rw [progress_hook_dl_one c1state c1event [] rfl rfl]
  simp only [Except.map, dlSet_overall, hp]
  norm_num [round2, roundHalfEven, Int.fract]

/-- Claim C1 (amended): a 'downloading' event with parsed percentage p
stores round(p, 2) when the expected total is 1, and
round((completed*100 + p)/total, 2) otherwise (total = 0 raises instead,
see the total-zero claim). -/
theorem downloading_overall_formula (s : ProgressData) (d : Event)
    (files : List String) (hd : d.status = .downloading) (h0 : s.total ≠ 0) :
    progress_hook false s d files =
      .ok (dlSet s (rawOf d) (eventTitle d)
        (if s.total = 1 then round2 (eventPercent d)
         else round2 (((s.current : ℚ) * 100 + eventPercent d) / (s.total : ℚ)))) := by
  rcases eq_or_ne s.total 1 with h1 | h1
  · rw [progress_hook_dl_one s d files hd h1, if_pos h1]
  · rw [progress_hook_dl_many s d files hd h1 h0, if_neg h1]

/-- A 'downloading' event at 47.5 percent, as in the spec's example. -/
def c1wevent : Event := ⟨.downloading, some " 47.5%", some "Clip"⟩

/-- Witness for C1: a single-item job at p = 47.5 stores overall 47.5. -/
theorem downloading_overall_formula_witness :
    c1state.total = 1 ∧
    eventPercent c1wevent = 95 / 2 ∧
    (progress_hook false c1state c1wevent []).map ProgressData.overall_percent =
      .ok (95 / 2) := by
  have h := downloading_overall_formula c1state c1wevent [] rfl (by decide)
  have hrep : parsePyFloatRep (pyStrip (removePercent (rawOf c1wevent))) =
      some (475, -1) := by decide
  have hp : eventPercent c1wevent = 95 / 2 := by
    simp [eventPercent, parsePyFloat, hrep]
    norm_num
  have h1 : c1state.total = 1 := rfl
  refine ⟨rfl, hp, ?_⟩
  rw [h]
  simp only [Except.map, dlSet_overall]
  rw [if_pos h1, hp]
  norm_num [round2, roundHalfEven, Int.fract]

/-- A three-item job mid-download with a current-item label set. -/
def c2state : ProgressData :=
  { baseState with
    total := 3
    status := "downloading"
    current_download := "Video A" }

/-- An item-finished event carrying no title. -/
def c2event : Event := ⟨.finished, none, none⟩

/-- Claim C2 counterexample: an item-finished event with an empty label on
an incomplete job *clears* the current-item label (it is set to the
event's empty title), so the label is not cleared only in the complete
case. -/
theorem label_cleared_only_complete_cex :
    c2state.current_download = "Video A" ∧
    (progress_hook false c2state c2event []).map ProgressData.status =
      .ok "downloading" ∧
    (progress_hook false c2state c2event []).map ProgressData.current_download =
      .ok "" :=
  ⟨rfl, rfl, rfl⟩

/-- Claim C2 (amended): an item-finished event increments the completed
count; when that reaches the total the overall percentage is exactly 100,
the phase becomes finished and the label is cleared; otherwise the
overall percentage is round(((c+1)/n)*100, 2), the phase stays
downloading and the label is set to the event's item title (so it is
cleared in the incomplete case exactly when the event carries an empty
title). -/
theorem item_finished_update (s : ProgressData) (d : Event)
    (files : List String) (hd : d.status = .finished) :
    progress_hook false s d files = .ok (finUpdate s (eventTitle d) files) ∧
    (finUpdate s (eventTitle d) files).current = s.current + 1 ∧
    (s.total ≤ s.current + 1 →
      (finUpdate s (eventTitle d) files).overall_percent = 100 ∧
      (finUpdate s (eventTitle d) files).status = "finished" ∧
      (finUpdate s (eventTitle d) files).current_download = "") ∧
    (¬ s.total ≤ s.current + 1 →
      (finUpdate s (eventTitle d) files).overall_percent =
        round2 (((s.current : ℚ) + 1) / (s.total : ℚ) * 100) ∧
      (finUpdate s (eventTitle d) files).status = "downloading" ∧
      (finUpdate s (eventTitle d) files).current_download = eventTitle d) := by
  refine ⟨progress_hook_fin s d files hd, by simp, ?_, ?_⟩
  · intro hc
    refine ⟨?_, ?_, ?_⟩
    · rw [finUpdate_overall, if_pos hc]
      exact round2_100
    · rw [finUpdate_status, if_pos hc]
    · rw [finUpdate_label, if_pos hc]
  · intro hc
    refine ⟨?_, ?_, ?_⟩
    · rw [finUpdate_overall, if_neg hc]
    · rw [finUpdate_status, if_neg hc]
    · rw [finUpdate_label, if_neg hc]

/-- An item-finished event with a title. -/
def c2wevent : Event := ⟨.finished, none, some "Vid"⟩

/-- Witness for C2: the first of three items finishing stores
round(100/3, 2) = 33.33, keeps downloading and shows the item title. -/
theorem item_finished_update_witness :
    (progress_hook false c2state c2wevent []).map ProgressData.current = .ok 1 ∧
    (progress_hook false c2state c2wevent []).map ProgressData.overall_percent =
      .ok (3333 / 100) ∧
    (progress_hook false c2state c2wevent []).map ProgressData.status =
      .ok "downloading" ∧
    (progress_hook false c2state c2wevent []).map ProgressData.current_download =
      .ok "Vid" := by
  have h := item_finished_update c2state c2wevent [] rfl
  have hnc : ¬ c2state.total ≤ c2state.current + 1 := by decide
  have h4 := h.2.2.2 hnc
  refine ⟨?_, ?_, ?_, ?_⟩ <;> rw [h.1] <;> simp only [Except.map, Except.ok.injEq]
  · rw [h.2.1]
    decide
  · rw [h4.1]
    norm_num [c2state, baseState, round2, roundHalfEven, Int.fract]
  · rw [h4.2.1]
  · rw [h4.2.2]
    decide

/-- A 'downloading' event observed while cancellation is pending. -/
def c3event : Event := ⟨.downloading, some "10.0%", some "Video"⟩

/-- A history entry (only threaded through; never written on the
cancellation path). -/
def c3entry : HistoryEntry := ⟨"t0", "https://u", "video", "720", "Video", 1⟩

/-- Claim C3: once cancellation is requested, the very next progress
callback raises (aborting the transfer), and a job body that ends in an
exception while the cancel flag is set lands in phase 'canceled' — never
'error' — with no error message recorded. -/
theorem cancel_terminal_canceled (s : ProgressData) (d : Event)
    (events : List (Bool × Event)) (files : List String) (entry : HistoryEntry)
    (err : HookError) (hrun : (runEvents s events files).2 = some err) :
    progress_hook true s d files = Except.error HookError.canceled ∧
    (start_download s events true files entry).status = "canceled" ∧
    errorMessage (start_download s events true files entry) = none := by
  have hsd : start_download s events true files entry =
      update_progress_data (runEvents s events files).1
        { status := some "canceled", progress := some "❌ Download canceled" } := by
    unfold start_download
    rcases hre : runEvents s events files with ⟨s2, res⟩
    rw [hre] at hrun
    rcases res with _ | e2
    · simp at hrun
    · simp
  refine ⟨rfl, ?_, ?_⟩
  · rw [hsd]
    rfl
  · rw [hsd]
    unfold errorMessage
    have hne : (update_progress_data (runEvents s events files).1
        { status := some "canceled",
          progress := some "❌ Download canceled" }).status = "canceled" := rfl
    rw [hne, if_neg (by decide)]

/-- Witness for C3: a one-event run with the cancel flag set raises at the
first callback and terminates in phase 'canceled' with no error
message. -/
theorem cancel_terminal_canceled_witness :
    (runEvents baseState [(true, c3event)] []).2 = some HookError.canceled ∧
    progress_hook true baseState c3event [] = Except.error HookError.canceled ∧
    (start_download baseState [(true, c3event)] true [] c3entry).status =
      "canceled" ∧
    errorMessage (start_download baseState [(true, c3event)] true [] c3entry) =
      none := by
  have hrun : (runEvents baseState [(true, c3event)] []).2 =
      some HookError.canceled := rfl
  have h := cancel_terminal_canceled baseState c3event [(true, c3event)] []
    c3entry HookError.canceled hrun
  exact ⟨hrun, h.1, h.2.1, h.2.2⟩

/-- A single-item job state. -/
def c6state : ProgressData := baseState

/-- A 'downloading' event whose exact aggregate has a third decimal digit
of exactly 5 (0.145). -/
def c6event : Event := ⟨.downloading, some "0.145%", some "Clip"⟩

/-- Claim C6 counterexample: 0.145 is stored as 0.14 (nearest even
hundredth), not 0.15 — Python's round is half-to-even, not
half-away-from-zero. -/
theorem round_half_away_cex :
    eventPercent c6event = 29 / 200 ∧
    (29 / 200 : ℚ) * 100 = 14 + 1 / 2 ∧
    (progress_hook false c6state c6event []).map ProgressData.overall_percent =
      .ok (7 / 50) ∧
    (7 / 50 : ℚ) ≠ 3 / 20 := by
  have hrep : parsePyFloatRep (pyStrip (removePercent (rawOf c6event))) =
      some (145, -3) := by decide
  have hp : eventPercent c6event = 29 / 200 := by
    simp [eventPercent, parsePyFloat, hrep]
    norm_num
  refine ⟨hp, by norm_num, ?_, by norm_num⟩
  rw [progress_hook_dl_one c6state c6event [] rfl rfl]
  simp only [Except.map, dlSet_overall, hp]
  norm_num [round2, roundHalfEven, Int.fract]

/-- Claim C6 (amended): every stored overall percentage is the exact
aggregation value rounded to two decimal places with ties to the even
hundredth (Python's built-in round), and the `/progress` endpoint returns
the stored value with no further smoothing. -/
theorem rounding_half_even :
    (∀ (s : ProgressData) (d : Event) (files : List String),
      d.status = DlStatus.downloading → s.total ≠ 1 → s.total ≠ 0 →
      (progress_hook false s d files).map ProgressData.overall_percent =
        .ok (round2 (((s.current : ℚ) * 100 + eventPercent d) / (s.total : ℚ)))) ∧
    (∀ (s : ProgressData) (d : Event) (files : List String),
      d.status = DlStatus.finished →
      (progress_hook false s d files).map ProgressData.overall_percent =
        .ok (round2 (if s.total ≤ s.current + 1 then 100
                     else ((s.current : ℚ) + 1) / (s.total : ℚ) * 100))) ∧
    (∀ k : ℤ, roundHalfEven ((k : ℚ) + 1 / 2) = if 2 ∣ k then k else k + 1) ∧
    (∀ (s : ProgressData) (files : List String),
      (progress_route s files).overall_percent = s.overall_percent) := by
  refine ⟨?_, ?_, ?_, ?_⟩
  · intro s d files hd h1 h0
    rw [progress_hook_dl_many s d files hd h1 h0]
    simp only [Except.map, dlSet_overall]
  · intro s d files hd
    rw [progress_hook_fin s d files hd]
    simp only [Except.map, Except.ok.injEq]
    rw [finUpdate_overall]
  · intro k
    have hfl : ⌊(k : ℚ) + 1 / 2⌋ = k := by
      rw [Int.floor_int_add]
      norm_num
    have hfr : Int.fract ((k : ℚ) + 1 / 2) = 1 / 2 := by
      rw [Int.fract_int_add]
      norm_num [Int.fract]
    unfold roundHalfEven
    rw [hfl, hfr]
    norm_num
  · intro s files
    rfl

/-- A three-item job with one completed item. -/
def c6wstate : ProgressData :=
  { baseState with
    total := 3
    current := 1
    status := "downloading" }

/-- The current item at 50 percent, as in the spec's example. -/
def c6wevent : Event := ⟨.downloading, some "50.0%", some "Clip"⟩

/-- Witness for C6: (1*100+50)/3 = 50 is stored as exactly 50; an integer
plus one half rounds to the even neighbour; the endpoint echoes the
stored value. -/
theorem rounding_half_even_witness :
    (progress_hook false c6wstate c6wevent []).map ProgressData.overall_percent =
      .ok 50 ∧
    roundHalfEven ((7 : ℚ) / 2) = 4 ∧
    (progress_route c6wstate []).overall_percent = c6wstate.overall_percent := by
  have h := rounding_half_even
  have hrep : parsePyFloatRep (pyStrip (removePercent (rawOf c6wevent))) =
      some (500, -1) := by decide
  have hp : eventPercent c6wevent = 50 := by
    simp [eventPercent, parsePyFloat, hrep]
    norm_num
  refine ⟨?_, ?_, h.2.2.2 c6wstate []⟩
  · rw [h.1 c6wstate c6wevent [] rfl (by decide) (by decide)]
    simp only [Except.ok.injEq]
    rw [hp]
    norm_num [c6wstate, baseState, round2, roundHalfEven, Int.fract]
  · have h3 := h.2.2.1 3
    norm_num at h3
    exact h3

/-- A fresh single-item job state for the invariants claim. -/
def c4state : ProgressData := baseState

/-- A 'downloading' event at 50 percent. -/
def c4e50 : Event := ⟨.downloading, some "50.0%", some "A"⟩

/-- A later 'downloading' event at 30 percent, behind the previous one. -/
def c4e30 : Event := ⟨.downloading, some "30.0%", some "A"⟩

/-- An item-finished event. -/
def c4fin : Event := ⟨.finished, none, some "A"⟩

/-- Claim C4 counterexample: over arbitrary event sequences neither bound
holds — a percentage going backwards (50 then 30) makes the stored
overall percentage decrease, and two item-finished events on a one-item
job push the completed count to 2 > 1 = total. -/
theorem overall_monotonic_cex :
    (progress_hook false c4state c4e50 []).map ProgressData.overall_percent =
      .ok 50 ∧
    ((progress_hook false c4state c4e50 []).bind
        (fun t => progress_hook false t c4e30 [])).map ProgressData.overall_percent =
      .ok 30 ∧
    ¬ (50 : ℚ) ≤ 30 ∧
    c4state.total = 1 ∧
    ((progress_hook false c4state c4fin []).bind
        (fun t => progress_hook false t c4fin [])).map ProgressData.current =
      .ok 2 ∧
    ¬ (2 : Nat) ≤ 1 := by
  have hrep50 : parsePyFloatRep (pyStrip (removePercent (rawOf c4e50))) =
      some (500, -1) := by decide
  have hp50 : eventPercent c4e50 = 50 := by
    simp [eventPercent, parsePyFloat, hrep50]
    norm_num
  have hrep30 : parsePyFloatRep (pyStrip (removePercent (rawOf c4e30))) =
      some (300, -1) := by decide
  have hp30 : eventPercent c4e30 = 30 := by
    simp [eventPercent, parsePyFloat, hrep30]
    norm_num
  have hr50 : round2 (50 : ℚ) = 50 := by
    norm_num [round2, roundHalfEven, Int.fract]
  have hr30 : round2 (30 : ℚ) = 30 := by
    norm_num [round2, roundHalfEven, Int.fract]
  have h1 : progress_hook false c4state c4e50 [] =
      .ok (dlSet c4state (rawOf c4e50) (eventTitle c4e50) (round2 (eventPercent c4e50))) :=
    progress_hook_dl_one c4state c4e50 [] rfl rfl
  refine ⟨?_, ?_, by norm_num, rfl, ?_, by norm_num⟩
  · rw [h1]
    simp only [Except.map, dlSet_overall, Except.ok.injEq]
    rw [hp50, hr50]
  · rw [h1]
    simp only [Except.bind]
    rw [progress_hook_dl_one _ c4e30 [] rfl rfl]
    simp only [Except.map, dlSet_overall, Except.ok.injEq]
    rw [hp30, hr30]
  · rfl

/-- A one-item well-formed trace: the single item finishes once. -/
def c4wfin : Event := ⟨.finished, none, some "Only"⟩

/-- Claim C4 (amended): over well-formed traces (per-item percentages
non-decreasing within [0,100], one finished event per item, at most
`total` items finishing and nothing after the last), starting from a
freshly started job, the hook never raises, the completed count and the
stored overall percentage are non-decreasing, the completed count never
exceeds the total, and any state in phase 'finished' has overall exactly
100. -/
theorem progress_invariants_wf (s : ProgressData) (n : Nat) (events : List Event)
    (files : List String) (htot : s.total = n) (_hn : 1 ≤ n) (hcur : s.current = 0)
    (hov : s.overall_percent = 0) (hst : s.status = "starting")
    (hwf : wfTrace n 0 events) :
    (runNoCancel s events files).2 = none ∧
    List.Chain' (fun a b => a.current ≤ b.current) (statesOf s events files) ∧
    List.Chain' (fun a b => a.overall_percent ≤ b.overall_percent)
      (statesOf s events files) ∧
    ∀ t ∈ statesOf s events files,
      t.current ≤ n ∧ (t.status = "finished" → t.overall_percent = 100) := by
  have hinv : s.current + n = s.total := by omega
  have hnf := run_no_fail events s n 0 files hwf hinv
  have harg : (((s.current : ℚ)) * 100 + 0) / (s.total : ℚ) = 0 := by
    rw [hcur]
    norm_num
  have hoc := statesOf_overall_chain events s n 0 files hwf hinv le_rfl
    (by norm_num) (by rw [harg, round2_zero, hov])
  have hf100 := statesOf_finished_100 events s files
    (by rw [hst]; intro hcontra; exact absurd hcontra (by decide))
  refine ⟨hnf.1, statesOf_current_chain events s files, hoc, ?_⟩
  intro t ht
  have h2 := hnf.2 t ht
  refine ⟨by omega, hf100 t ht⟩

/-- Witness for C4: the invariants evaluated on a one-item job whose
single item finishes. -/
theorem progress_invariants_wf_witness :
    wfTrace 1 0 [c4wfin] ∧
    (runNoCancel baseState [c4wfin] []).2 = none ∧
    ∀ t ∈ statesOf baseState [c4wfin] [],
      t.current ≤ 1 ∧ (t.status = "finished" → t.overall_percent = 100) := by
  have hwf : wfTrace 1 0 [c4wfin] := by
    rw [wfTrace_cons_fin rfl]
    exact ⟨Nat.one_pos, by rw [wfTrace]; trivial⟩
  have h := progress_invariants_wf baseState 1 [c4wfin] [] rfl le_rfl rfl rfl rfl hwf
  exact ⟨hwf, h.1, h.2.2.2⟩
